import Mathlib

/-!
Shallow embedding of the control-state binding and synchronization layer of
pylnp's `tkgui.py`: the control registry and display synchronizer
(`TkGui.update_displays`, registration via `self.controls[key] = ...`,
`TkGui.change_entry`), the list projection engine (`TkGui.update_autorun_list`,
`TkGui.update_hack_list`), and the debounced hover notifier (`ToolTip`,
`create_tooltip`).  Controller state (the `lnp` collaborator) is modelled as
explicit parameters; widget state is modelled as explicit data.
-/

namespace PyLNP

/-! ## Control registry and display synchronizer -/

/-- A widget bound in `self.controls`.  `entry content` models a Tk `Entry`
widget holding `content`; `button text` models any non-`Entry` text widget
(`Button` or `Label`) whose `text` option is `text` — `update_displays`
distinguishes exactly these two cases via `isinstance(control, Entry)`. -/
inductive Control where
  | entry (content : String)
  | button (text : String)
deriving DecidableEq

/-- The text currently shown by a control. -/
def displayedText : Control → String
  | Control.entry c => c
  | Control.button t => t

/-- One registered binding: the target widget plus an optional projection
function, embedding the source idiom of storing either a bare widget or a
`(control, func)` tuple in `self.controls` (tkgui.py:1292-1297 dispatches on
`hasattr(self.controls[key], '__iter__')`).  The projection receives the raw
value, which is `None` (here `Option.none`) when the settings lookup failed. -/
structure Binding where
  control : Control
  projection : Option (Option String → Option String)

/-- Controller settings as seen through `getattr(self.lnp.settings, key)`
(tkgui.py:1289): `none` models a lookup that raises `KeyError`. -/
abbrev Settings := String → Option String

/-- Python's `str` conversion applied when a possibly-`None` value is inserted
into an `Entry` widget: a string is inserted verbatim, `None` renders as
`"None"` (Tk stringifies non-string arguments). -/
def pyStrOpt : Option String → String
  | some s => s
  | none => "None"

/-- Characters of a string up to (excluding) the first `':'`, embedding the
Python expression `text.split(':')[0]` from tkgui.py:1303. -/
def takeUntilColon : List Char → List Char
  | [] => []
  | c :: cs => if c = ':' then [] else c :: takeUntilColon cs

/-- The part of a widget label before the first colon: `text.split(':')[0]`. -/
def labelBase (t : String) : String := String.mk (takeUntilColon t.data)

/-- Rendering one value into one control (tkgui.py:1298-1304).  An `Entry` has
its content deleted and the value inserted (Tk stringifies `None`).  Any other
control gets `control["text"].split(':')[0] + ': ' + value`; when the value is
Python `None` this `str + None` concatenation raises `TypeError`, modelled as
`Option.none`. -/
def renderControl : Control → Option String → Option Control
  | Control.entry _, v => some (Control.entry (pyStrOpt v))
  | Control.button t, some v => some (Control.button (labelBase t ++ ": " ++ v))
  | Control.button _, none => none

/-- Value selection of the `update_displays` loop body (tkgui.py:1292-1297):
when the binding is a `(control, func)` tuple the stored function is applied
to the raw value, otherwise the raw value is used directly. -/
def projValue : Option (Option String → Option String) → Option String → Option String
  | some f, raw => f raw
  | none, raw => raw

/-- One iteration of the `update_displays` loop body for key `k`
(tkgui.py:1287-1304): fetch the raw value (a raised `KeyError` is caught and
the value becomes `None`), apply the projection if the binding is a
`(control, func)` tuple, and render into the widget.  `none` models an
uncaught exception escaping the loop body. -/
def refreshStep (s : Settings) (k : String) (b : Binding) : Option Binding :=
  (renderControl b.control (projValue b.projection (s k))).map fun c =>
    { b with control := c }

/-- `TkGui.update_displays` (tkgui.py:1285-1304): iterate over the registered
controls, re-rendering each from the controller's current settings.  The dict
is modelled as an association list in iteration order.  Returns the registry
of updated controls together with a flag that is `false` when an uncaught
exception aborted the loop; bindings at and after the aborting key keep their
previous widget state. -/
def update_displays (s : Settings) : List (String × Binding) → List (String × Binding) × Bool
  | [] => ([], true)
  | (k, b) :: rest =>
    match refreshStep s k b with
    | none => ((k, b) :: rest, false)
    | some b' =>
      let r := update_displays s rest
      ((k, b') :: r.1, r.2)

/-- Registration of a binding, embedding the source idiom
`self.controls[key] = binding` (e.g. tkgui.py:588, tkgui.py:1041): a Python
dict assignment, which silently replaces the value when the key is already
present and appends a new entry otherwise. -/
def register (reg : List (String × Binding)) (k : String) (b : Binding) :
    List (String × Binding) :=
  if reg.any fun p => decide (p.1 = k) then
    reg.map fun p => if p.1 = k then (k, b) else p
  else
    reg ++ [(k, b)]

/-- Dict lookup `self.controls[key]` on the modelled registry: the value of
the first entry carrying the key. -/
def lookupControl : List (String × Binding) → String → Option Binding
  | [], _ => none
  | p :: ps, k => if p.1 = k then some p.2 else lookupControl ps k

/-- Modelled from the spec: `setValue(key, value)` of the controller contract
(`self.lnp.set_option`, whose implementation lives outside this repository)
persists one setting change; modelled as an association-list update that
replaces the value stored at `key`, or appends the pair when absent. -/
def setOption (k v : String) (st : List (String × String)) : List (String × String) :=
  if st.any fun p => decide (p.1 = k) then
    st.map fun p => if p.1 = k then (k, v) else p
  else
    st ++ [(k, v)]

/-- `TkGui.change_entry` (tkgui.py:1085-1096): commit a changed entry control,
writing to the controller only when the entry's current content is nonempty
(`if var.get() != '': self.lnp.set_option(key, var.get())`). -/
def change_entry (k content : String) (st : List (String × String)) :
    List (String × String) :=
  if content ≠ "" then setOption k content st else st

/-! ## List projection engine -/

/-- Component of a path after the last `'/'`, embedding
`posixpath.basename`. -/
def basenameChars (l : List Char) : List Char :=
  ((l.reverse.takeWhile fun c => c ≠ '/').reverse)

/-- `os.path.basename` (posix semantics). -/
def basename (s : String) : String := String.mk (basenameChars s.data)

/-- `os.path.dirname` (posix semantics): everything up to and including the
last slash, then trailing slashes stripped unless the head is empty or all
slashes. -/
def dirnameChars (l : List Char) : List Char :=
  let head := l.take (l.length - (basenameChars l).length)
  if head.any fun c => c ≠ '/' then
    (head.reverse.dropWhile fun c => c = '/').reverse
  else head

/-- `os.path.dirname` on strings. -/
def dirname (s : String) : String := String.mk (dirnameChars s.data)

/-- `os.path.join(a, b)` (posix semantics, two arguments): `b` if absolute,
else `a ++ b` when `a` is empty or ends with a slash, else `a ++ "/" ++ b`. -/
def joinPath (a b : String) : String :=
  if b.data.head? = some '/' then b
  else if a = "" ∨ a.data.getLast? = some '/' then a ++ b
  else a ++ "/" ++ b

/-- Root part of `os.path.splitext` (posix semantics): strip the extension
after the last dot of the final path component, unless every character before
that dot (within the component) is itself a dot. -/
def splitextRoot (s : String) : String :=
  let l := s.data
  let base := basenameChars l
  let ext := base.reverse.takeWhile fun c => c ≠ '.'
  if ext.length = base.length then s
  else
    let stem := base.take (base.length - ext.length - 1)
    if stem.any fun c => c ≠ '.' then String.mk (l.take (l.length - ext.length - 1))
    else s

/-- One row of a Tk `Treeview` list as built by the update loops: the item's
`text=` (the authoritative identifier), the first `values` column (the visible
label) and the second `values` column (the derived status, `'Yes'`/`'No'`). -/
structure ListRow where
  text : String
  label : String
  status : String
deriving DecidableEq

/-- The visible label of one autorun row (tkgui.py:1278-1281):
`os.path.join(os.path.basename(os.path.dirname(p)), os.path.basename(p))`,
replaced by `os.path.splitext(os.path.basename(p))[0]` when the
`hideUtilityPath` config flag is set. -/
def exeLabel (hideUtilityPath : Bool) (p : String) : String :=
  let exe := joinPath (basename (dirname p)) (basename p)
  if hideUtilityPath then splitextRoot (basename p) else exe

/-- The row inserted for one program `p` by `update_autorun_list`
(tkgui.py:1277-1283): `text=p`, label via `exeLabel`, status `'Yes'` iff `p`
is in the controller's autorun list. -/
def autorunRow (hideUtilityPath : Bool) (autorun : List String) (p : String) : ListRow :=
  { text := p, label := exeLabel hideUtilityPath p,
    status := if p ∈ autorun then "Yes" else "No" }

/-- `TkGui.update_autorun_list` (tkgui.py:1273-1283): delete every existing
row (`for i in self.proglist.get_children(): self.proglist.delete(i)`), then
insert one row per program in `self.progs`, in order. -/
def update_autorun_list (hideUtilityPath : Bool) (autorun : List String)
    (progs : List String) (oldRows : List ListRow) : List ListRow :=
  let cleared : List ListRow := oldRows.filter fun _ => false
  cleared ++ progs.map (autorunRow hideUtilityPath autorun)

/-- The insertion loop of `update_autorun_list` with the status expression
`'Yes' if p in self.lnp.autorun else 'No'` abstracted as a fallible lookup:
`none` models a status derivation that raises.  The loop body has no exception
handling of its own, so a raised lookup aborts the iteration; rows already
inserted remain in the widget, and the failing item and all later items get no
rows.  Returns the inserted rows and a success flag. -/
def insertRowsFallible (hideUtilityPath : Bool) (statusLookup : String → Option Bool) :
    List String → List ListRow × Bool
  | [] => ([], true)
  | p :: ps =>
    match statusLookup p with
    | none => ([], false)
    | some flag =>
      let row : ListRow :=
        { text := p, label := exeLabel hideUtilityPath p,
          status := if flag then "Yes" else "No" }
      let r := insertRowsFallible hideUtilityPath statusLookup ps
      (row :: r.1, r.2)

/-- `update_autorun_list` with a fallible status lookup: clear all previous
rows, then run the unguarded insertion loop. -/
def update_autorun_list_fallible (hideUtilityPath : Bool)
    (statusLookup : String → Option Bool) (progs : List String)
    (oldRows : List ListRow) : List ListRow × Bool :=
  let cleared : List ListRow := oldRows.filter fun _ => false
  let r := insertRowsFallible hideUtilityPath statusLookup progs
  (cleared ++ r.1, r.2)

/-- `TkGui.update_hack_list` (tkgui.py:1461-1467): delete every existing row,
then insert one row per `(name, hack)` pair of `self.lnp.get_hacks().items()`
with `text=k`, `values=(k, 'Yes' if h['enabled'] else 'No')`.  The hacks dict
is modelled as an association list of `(name, enabled)` in iteration order. -/
def update_hack_list (hacks : List (String × Bool)) (oldRows : List ListRow) :
    List ListRow :=
  let cleared : List ListRow := oldRows.filter fun _ => false
  cleared ++ hacks.map fun kh =>
    { text := kh.1, label := kh.1, status := if kh.2 then "Yes" else "No" }

/-! ## Debounced hover notifier -/

/-- The mutable fields of class `ToolTip` (tkgui.py:108-162): current text,
the `active` flag, the tip window (as the screen anchor it was created at, or
`none`), and the stored timer handle `self.event`. -/
structure ToolTipState where
  text : String
  active : Bool
  tipwindow : Option (Int × Int)
  event : Option Nat
deriving DecidableEq

/-- The world a tooltip lives in: the tooltip's own state, the set of
scheduled-but-not-yet-fired timer handles of the Tk event loop, a counter
producing fresh handles, and the current pointer position. -/
structure World where
  tip : ToolTipState
  pending : List Nat
  nextId : Nat
  px : Int
  py : Int
deriving DecidableEq

/-- `ToolTip.showtip` (tkgui.py:119-139): set `active`, then return early when
a tip window already exists or the text is empty; otherwise create the window
anchored 16 pixels right and below the current pointer position. -/
def showtip (w : World) : World :=
  let w1 := { w with tip := { w.tip with active := true } }
  if w1.tip.tipwindow.isSome ∨ w1.tip.text = "" then w1
  else { w1 with tip := { w1.tip with tipwindow := some (w1.px + 16, w1.py + 16) } }

/-- `ToolTip.hidetip` (tkgui.py:141-147): drop the window and clear
`active`. -/
def hidetip (w : World) : World :=
  { w with tip := { w.tip with tipwindow := none, active := false } }

/-- `ToolTip.settext` (tkgui.py:149-162): identical text returns immediately;
otherwise store the new text and, when the tooltip is active, hide and
immediately re-show it. -/
def settext (w : World) (txt : String) : World :=
  if txt = w.tip.text then w
  else
    let w1 := { w with tip := { w.tip with text := txt } }
    if w1.tip.active then showtip (hidetip w1) else w1

/-- `widget.after_cancel(handle)`: remove a scheduled timer; cancelling a
handle that already fired or was cancelled is a no-op. -/
def after_cancel (w : World) (t : Nat) : World :=
  { w with pending := w.pending.erase t }

/-- The `enter` handler of `create_tooltip` (tkgui.py:180-189): cancel the
stored timer handle if one is stored (the handle string is always truthy),
then schedule a fresh 500 ms timer and store its handle. -/
def enter (w : World) : World :=
  let w1 :=
    match w.tip.event with
    | some t => after_cancel w t
    | none => w
  { w1 with
      pending := w1.pending ++ [w1.nextId],
      nextId := w1.nextId + 1,
      tip := { w1.tip with event := some w1.nextId } }

/-- The `leave` handler of `create_tooltip` (tkgui.py:191-202): when a handle
is stored, cancel it and clear the stored handle; then hide the tooltip. -/
def leave (w : World) : World :=
  let w1 :=
    match w.tip.event with
    | some t =>
      let w2 := after_cancel w t
      { w2 with tip := { w2.tip with event := none } }
    | none => w
  hidetip w1

/-- A scheduled timer firing: only a still-pending handle can fire; firing
consumes the handle and runs the callback `tooltip.showtip`.  The stored
`tooltip.event` is deliberately not cleared, as in the source. -/
def fire (w : World) (t : Nat) : World :=
  if t ∈ w.pending then showtip { w with pending := w.pending.erase t } else w

/-- External events driving one tooltip: pointer enter/exit, a timer firing,
a text update (`ToolTip.settext`), and pointer motion. -/
inductive Ev where
  | enter
  | leave
  | fire (t : Nat)
  | settext (txt : String)
  | move (x y : Int)

/-- One event step. -/
def step (w : World) : Ev → World
  | Ev.enter => enter w
  | Ev.leave => leave w
  | Ev.fire t => fire w t
  | Ev.settext txt => settext w txt
  | Ev.move x y => { w with px := x, py := y }

/-- The state produced by `create_tooltip(widget, text)` (tkgui.py:167-205)
together with an empty timer queue and the pointer at the origin. -/
def init (text : String) : World :=
  { tip := { text := text, active := false, tipwindow := none, event := none },
    pending := [], nextId := 0, px := 0, py := 0 }

/-- Run a sequence of events from the initial state. -/
def run (text : String) (evs : List Ev) : World :=
  evs.foldl step (init text)

/-! ## Lemmas about the display synchronizer -/

lemma mem_takeUntilColon_ne (l : List Char) : ∀ c ∈ takeUntilColon l, c ≠ ':' := by
  induction l with
  | nil => intro c hc; cases hc
  | cons a as ih =>
    intro c hc
    by_cases ha : a = ':'
    · rw [takeUntilColon, if_pos ha] at hc; cases hc
    · rw [takeUntilColon, if_neg ha] at hc
      rcases List.mem_cons.mp hc with rfl | hc
      · exact ha
      · exact ih c hc

lemma takeUntilColon_append (p r : List Char) (h : ∀ c ∈ p, c ≠ ':') :
    takeUntilColon (p ++ ':' :: r) = p := by
  induction p with
  | nil => simp [takeUntilColon]
  | cons a as ih =>
    have ha : a ≠ ':' := h a (List.mem_cons_self a as)
    rw [List.cons_append, takeUntilColon, if_neg ha,
      ih fun c hc => h c (List.mem_cons_of_mem a hc)]

/-- Re-extracting the label stem of an already-rewritten button label gives
the original stem: the second refresh of a button reproduces its state. -/
lemma labelBase_render (t w : String) :
    labelBase (labelBase t ++ ": " ++ w) = labelBase t := by
  unfold labelBase
  congr 1
  rw [String.data_append, String.data_append]
  show takeUntilColon (takeUntilColon t.data ++ [':', ' '] ++ w.data)
    = takeUntilColon t.data
  rw [List.append_assoc]
  exact takeUntilColon_append _ _ (mem_takeUntilColon_ne t.data)

/-- A control that a render step produced is a fixed point of rendering the
same value again. -/
lemma renderControl_fix (c0 c : Control) (v : Option String)
    (h : renderControl c0 v = some c) : renderControl c v = some c := by
  cases c0 with
  | entry t =>
    rw [renderControl] at h
    obtain rfl := Option.some.inj h
    rfl
  | button t =>
    cases v with
    | none => exact absurd h (by simp [renderControl])
    | some w =>
      rw [renderControl] at h
      obtain rfl := Option.some.inj h
      rw [renderControl, labelBase_render]

/-- A binding produced by a successful refresh step is a fixed point of the
refresh step. -/
lemma refreshStep_fix (s : Settings) (k : String) (b b' : Binding)
    (h : refreshStep s k b = some b') : refreshStep s k b' = some b' := by
  unfold refreshStep at h ⊢
  rcases hr : renderControl b.control (projValue b.projection (s k)) with _ | c
  · rw [hr] at h; exact absurd h (by simp)
  · rw [hr] at h
    obtain rfl := Option.some.inj h
    show (renderControl c (projValue b.projection (s k))).map
      (fun c' => { b with control := c' }) = some { b with control := c }
    rw [renderControl_fix b.control c _ hr]
    rfl

/-- Claim C3: `refresh()` is idempotent — running `update_displays` a second
time with the same controller state leaves every registered control (entry
contents and rewritten button labels alike) displaying the same value as
after the first run, and reproduces the same success flag. -/
theorem update_displays_idem (s : Settings) (reg : List (String × Binding)) :
    update_displays s (update_displays s reg).1 = update_displays s reg := by
  induction reg with
  | nil => rfl
  | cons p rest ih =>
    obtain ⟨k, b⟩ := p
    rcases h : refreshStep s k b with _ | b'
    · have e1 : update_displays s ((k, b) :: rest) = ((k, b) :: rest, false) := by
        simp [update_displays, h]
      rw [e1]
      simpa using e1
    · have e1 : update_displays s ((k, b) :: rest) =
          ((k, b') :: (update_displays s rest).1, (update_displays s rest).2) := by
        simp [update_displays, h]
      rw [e1]
      have h2 : refreshStep s k b' = some b' := refreshStep_fix s k b b' h
      simp only [update_displays, h2]
      rw [ih]

/-- When every per-key refresh step succeeds, `update_displays` re-renders
every binding and reports success. -/
lemma update_displays_of_isSome (s : Settings) (reg : List (String × Binding))
    (h : ∀ p ∈ reg, (refreshStep s p.1 p.2).isSome) :
    update_displays s reg
      = (reg.map fun p => (p.1, (refreshStep s p.1 p.2).getD p.2), true) := by
  induction reg with
  | nil => rfl
  | cons q rest ih =>
    obtain ⟨k, b⟩ := q
    have hh := h (k, b) (List.mem_cons_self _ _)
    rcases hb : refreshStep s k b with _ | b'
    · rw [hb] at hh; cases hh
    · simp [update_displays, hb, ih fun q hq => h q (List.mem_cons_of_mem _ hq)]

/-- When `update_displays` reports success, every per-key refresh step
succeeded. -/
lemma isSome_of_update_displays_ok (s : Settings) (reg : List (String × Binding))
    (h : (update_displays s reg).2 = true) :
    ∀ p ∈ reg, (refreshStep s p.1 p.2).isSome := by
  induction reg with
  | nil => intro p hp; cases hp
  | cons q rest ih =>
    obtain ⟨k, b⟩ := q
    rcases hb : refreshStep s k b with _ | b'
    · rw [show update_displays s ((k, b) :: rest) = ((k, b) :: rest, false) by
        simp [update_displays, hb]] at h
      cases h
    · have hrest : (update_displays s rest).2 = true := by
        rw [show update_displays s ((k, b) :: rest)
            = ((k, b') :: (update_displays s rest).1, (update_displays s rest).2) by
          simp [update_displays, hb]] at h
        exact h
      intro p hp
      rcases List.mem_cons.mp hp with rfl | hp
      · simp [hb]
      · exact ih hrest p hp

/-- Registry and settings of the C1 scenario: key `"popcap"` bound without a
projection to the `'Population Cap'` button, controller value `"200"`. -/
def popcapReg : List (String × Binding) :=
  [("popcap", { control := Control.button "Population Cap", projection := none })]

/-- Controller settings for the C1 scenario. -/
def popcapSettings : Settings := fun k => if k == "popcap" then some "200" else none

/-- Claim C1, counterexample: key `"popcap"` is bound with no projection to a
button whose label is `'Population Cap'`; the controller returns `"200"`, yet
after `update_displays` the control displays `"Population Cap: 200"`, not the
raw value `"200"` verbatim — the current label stem and `': '` are
prepended. -/
theorem update_displays_verbatim_cex :
    ((update_displays popcapSettings popcapReg).1.map fun p => displayedText p.2.control)
        = ["Population Cap: 200"]
    ∧ ("Population Cap: 200" : String) ≠ "200" :=
  ⟨rfl, by decide⟩

/-- Claim C1, amended: for a key bound without a projection whose lookup
succeeds, a successful `update_displays` displays the raw value verbatim when
the target is an entry control; when the target is any other control, the
displayed text is the previous label's stem before the first colon followed
by `': '` and the raw value. -/
theorem update_displays_no_projection
    (s : Settings) (reg : List (String × Binding)) (k : String) (b : Binding) (v : String)
    (hmem : (k, b) ∈ reg) (hproj : b.projection = none) (hv : s k = some v)
    (hok : (update_displays s reg).2 = true) :
    ∃ c : Control,
      (k, { control := c, projection := none : Binding }) ∈ (update_displays s reg).1
      ∧ ((∃ t, b.control = Control.entry t ∧ c = Control.entry v)
         ∨ (∃ t, b.control = Control.button t
              ∧ c = Control.button (labelBase t ++ ": " ++ v))) := by
  have hs := isSome_of_update_displays_ok s reg hok
  rw [update_displays_of_isSome s reg hs]
  cases hc : b.control with
  | entry t =>
    refine ⟨Control.entry v, ?_, Or.inl ⟨t, rfl, rfl⟩⟩
    refine List.mem_map.mpr ⟨(k, b), hmem, ?_⟩
    have hstep : refreshStep s k b = some { control := Control.entry v, projection := none } := by
      unfold refreshStep
      rw [hproj, hc, hv]
      rfl
    simp [hstep]
  | button t =>
    refine ⟨Control.button (labelBase t ++ ": " ++ v), ?_, Or.inr ⟨t, rfl, rfl⟩⟩
    refine List.mem_map.mpr ⟨(k, b), hmem, ?_⟩
    have hstep : refreshStep s k b
        = some { control := Control.button (labelBase t ++ ": " ++ v), projection := none } := by
      unfold refreshStep
      rw [hproj, hc, hv]
      rfl
    simp [hstep]

/-- Claim C1, witness: the amended statement applied to a concrete registry
holding an entry-control binding for key `"volume"` with controller value
`"42"`: the entry ends up displaying `"42"` verbatim. -/
theorem update_displays_no_projection_witness :
    ∃ c : Control,
      ("volume", { control := c, projection := none : Binding })
          ∈ (update_displays (fun _ => some "42")
              [("volume", { control := Control.entry "", projection := none })]).1
      ∧ ((∃ t, (Control.entry "" : Control) = Control.entry t ∧ c = Control.entry "42")
         ∨ (∃ t, (Control.entry "" : Control) = Control.button t
              ∧ c = Control.button (labelBase t ++ ": " ++ "42"))) :=
  update_displays_no_projection (fun _ => some "42")
    [("volume", { control := Control.entry "", projection := none })]
    "volume" { control := Control.entry "", projection := none } "42"
    (List.mem_singleton.mpr rfl) rfl rfl rfl

/-- Rendering into an entry control always succeeds and stores the
stringified value. -/
lemma renderControl_entry (t : String) (v : Option String) :
    renderControl (Control.entry t) v = some (Control.entry (pyStrOpt v)) := by
  cases v <;> rfl

/-- Registry of the C2 scenario: key `"autoClose"` bound to the
`'Close GUI on launch'` button together with a projection returning
`"YES"`, mirroring tkgui.py:1041-1043. -/
def autoCloseReg : List (String × Binding) :=
  [("autoClose", { control := Control.button "Close GUI on launch",
                   projection := some fun _ => some "YES" })]

/-- Controller settings for the C2 scenario. -/
def autoCloseSettings : Settings := fun k => if k == "autoClose" then some "True" else none

/-- Claim C2, counterexample: key `"autoClose"` is bound with a projection
returning `"YES"`; after `update_displays` the control displays
`"Close GUI on launch: YES"`, not the projection output `"YES"` — for a
non-entry control the projection output is appended after the label stem
rather than displayed as the whole text. -/
theorem update_displays_projection_cex :
    ((update_displays autoCloseSettings autoCloseReg).1.map
        fun p => displayedText p.2.control)
      = ["Close GUI on launch: YES"]
    ∧ ("Close GUI on launch: YES" : String) ≠ "YES" :=
  ⟨rfl, by decide⟩

/-- Claim C2, amended: for a key bound with a projection `f`, a successful
`update_displays` never places the raw value in the widget: an entry control
ends up displaying exactly `f(raw)` (with Python `None` stringified), and any
other control ends up displaying its previous label stem, `': '`, and the
output of `f` — the raw value influences the display only through `f`. -/
theorem update_displays_projection
    (s : Settings) (reg : List (String × Binding)) (k : String) (b : Binding)
    (f : Option String → Option String)
    (hmem : (k, b) ∈ reg) (hproj : b.projection = some f)
    (hok : (update_displays s reg).2 = true) :
    ∃ c : Control,
      (k, { control := c, projection := some f : Binding }) ∈ (update_displays s reg).1
      ∧ ((∃ t, b.control = Control.entry t ∧ c = Control.entry (pyStrOpt (f (s k))))
         ∨ (∃ t w, b.control = Control.button t ∧ f (s k) = some w
              ∧ c = Control.button (labelBase t ++ ": " ++ w))) := by
  have hs := isSome_of_update_displays_ok s reg hok
  rw [update_displays_of_isSome s reg hs]
  cases hc : b.control with
  | entry t =>
    refine ⟨Control.entry (pyStrOpt (f (s k))), ?_, Or.inl ⟨t, rfl, rfl⟩⟩
    refine List.mem_map.mpr ⟨(k, b), hmem, ?_⟩
    have hstep : refreshStep s k b
        = some { control := Control.entry (pyStrOpt (f (s k))), projection := some f } := by
      unfold refreshStep
      rw [hproj, hc]
      show (renderControl (Control.entry t) (f (s k))).map _ = _
      rw [renderControl_entry]
      rfl
    simp [hstep]
  | button t =>
    have hss := hs (k, b) hmem
    rcases hw : f (s k) with _ | w
    · exfalso
      have hfail : refreshStep s k b = none := by
        unfold refreshStep
        rw [hproj, hc]
        show (renderControl (Control.button t) (f (s k))).map _ = _
        rw [hw]
        rfl
      rw [hfail] at hss
      cases hss
    · refine ⟨Control.button (labelBase t ++ ": " ++ w), ?_, Or.inr ⟨t, w, rfl, rfl, rfl⟩⟩
      refine List.mem_map.mpr ⟨(k, b), hmem, ?_⟩
      have hstep : refreshStep s k b
          = some { control := Control.button (labelBase t ++ ": " ++ w),
                   projection := some f } := by
        unfold refreshStep
        rw [hproj, hc]
        show (renderControl (Control.button t) (f (s k))).map _ = _
        rw [hw]
        rfl
      simp [hstep]

/-- Claim C2, witness: the amended statement applied to the concrete
`"autoClose"` registry — the button ends up displaying
`'Close GUI on launch: YES'`, derived from the projection output `"YES"`. -/
theorem update_displays_projection_witness :
    ∃ c : Control,
      ("autoClose",
          ({ control := c, projection := some (fun _ => some "YES") } : Binding))
          ∈ (update_displays autoCloseSettings autoCloseReg).1
      ∧ ((∃ t, (Control.button "Close GUI on launch" : Control) = Control.entry t
            ∧ c = Control.entry (pyStrOpt ((fun _ => some "YES")
                (autoCloseSettings "autoClose"))))
         ∨ (∃ t w, (Control.button "Close GUI on launch" : Control) = Control.button t
              ∧ (fun _ => some "YES" : Option String → Option String)
                  (autoCloseSettings "autoClose") = some w
              ∧ c = Control.button (labelBase t ++ ": " ++ w))) :=
  update_displays_projection autoCloseSettings autoCloseReg "autoClose"
    { control := Control.button "Close GUI on launch",
      projection := some fun _ => some "YES" }
    (fun _ => some "YES") (List.mem_singleton.mpr rfl) rfl rfl

/-- Claim C4, counterexample: a registry with key `"popcap"` (plain button,
no value in the controller) before key `"invaders"` (plain button, value
available).  `update_displays` catches the lookup failure and substitutes
`None`, but rendering `None` into a plain button raises `TypeError`
(`str + None`), aborting the loop: the result keeps every control's old
state (in particular `"invaders"` is not re-rendered, as the second conjunct
shows a successful render of it would have produced `'Invaders: YES'`). -/
def isoReg : List (String × Binding) :=
  [("popcap", { control := Control.button "Population Cap", projection := none }),
   ("invaders", { control := Control.button "Invaders", projection := none })]

/-- Controller settings for the C4 scenario: no value for `"popcap"`, value
`"YES"` for `"invaders"`. -/
def isoSettings : Settings := fun k => if k == "invaders" then some "YES" else none

/-- Claim C4, counterexample statement (see `isoReg`): the refresh aborts at
the failing key `"popcap"`, leaving the registry untouched and in particular
never re-rendering the healthy key `"invaders"`. -/
theorem update_displays_isolation_cex :
    update_displays isoSettings isoReg = (isoReg, false)
    ∧ refreshStep isoSettings "invaders"
        { control := Control.button "Invaders", projection := none }
      = some { control := Control.button "Invaders: YES", projection := none } :=
  ⟨rfl, rfl⟩

/-- Claim C4, amended: the per-key lookup failure itself is caught
(`except KeyError`) and the value becomes `None`; the refresh of the other
keys completes whenever every key's rendering succeeds — in particular a
failing key bound to an entry control or through a projection does not abort
the refresh.  But a failing key bound without a projection to a non-entry
control raises `TypeError` while rendering, aborting the refresh at that key
and leaving it and every later key un-rendered. -/
theorem update_displays_failure_isolation (s : Settings) :
    (∀ reg : List (String × Binding),
        (∀ p ∈ reg, (refreshStep s p.1 p.2).isSome) →
        update_displays s reg
          = (reg.map fun p => (p.1, (refreshStep s p.1 p.2).getD p.2), true))
    ∧ (∀ (pre : List (String × Binding)) (k : String) (b : Binding)
          (rest : List (String × Binding)) (t : String),
        s k = none → b.projection = none → b.control = Control.button t →
        (∀ p ∈ pre, (refreshStep s p.1 p.2).isSome) →
        update_displays s (pre ++ (k, b) :: rest)
          = ((pre.map fun p => (p.1, (refreshStep s p.1 p.2).getD p.2))
              ++ (k, b) :: rest, false)) := by
  constructor
  · exact fun reg h => update_displays_of_isSome s reg h
  · intro pre k b rest t hk hproj hc
    induction pre with
    | nil =>
      intro _
      have hstep : refreshStep s k b = none := by
        unfold refreshStep
        rw [hproj, hc, hk]
        rfl
      simp [update_displays, hstep]
    | cons q pre ih =>
      intro hpre
      obtain ⟨k0, b0⟩ := q
      have h0 := hpre (k0, b0) (List.mem_cons_self _ _)
      rcases hb0 : refreshStep s k0 b0 with _ | b0'
      · rw [hb0] at h0; cases h0
      · have hrec := ih fun p hp => hpre p (List.mem_cons_of_mem _ hp)
        have e1 : update_displays s (((k0, b0) :: pre) ++ (k, b) :: rest)
            = ((k0, b0') :: (update_displays s (pre ++ (k, b) :: rest)).1,
               (update_displays s (pre ++ (k, b) :: rest)).2) := by
          simp [update_displays, hb0]
        rw [e1, hrec]
        simp [hb0]

/-- Claim C4, witness: the amended statement's abort case at a concrete
registry — an entry-control key whose lookup also fails renders `"None"`
harmlessly, then the plain-button key `"popcap"` with no value aborts,
leaving it and the following `"invaders"` key untouched. -/
def c4Pre : List (String × Binding) :=
  [("volume", { control := Control.entry "", projection := none })]

/-- Bad binding of the C4 witness: a plain button with no controller value. -/
def c4Bad : Binding := { control := Control.button "Population Cap", projection := none }

/-- Suffix registry of the C4 witness. -/
def c4Rest : List (String × Binding) :=
  [("invaders", { control := Control.button "Invaders", projection := none })]

/-- Claim C4, witness statement. -/
theorem update_displays_failure_isolation_witness :
    update_displays isoSettings (c4Pre ++ ("popcap", c4Bad) :: c4Rest)
      = ((c4Pre.map fun p => (p.1, (refreshStep isoSettings p.1 p.2).getD p.2))
          ++ ("popcap", c4Bad) :: c4Rest, false) :=
  (update_displays_failure_isolation isoSettings).2 c4Pre "popcap" c4Bad c4Rest
    "Population Cap" rfl rfl rfl (by decide)

/-! ## Lemmas about registration -/

/-- Replacing the value stored at `k` makes `k` look up the new value,
provided `k` was present. -/
lemma lookup_replace_self (reg : List (String × Binding)) (k : String) (b : Binding)
    (h : (reg.any fun p => decide (p.1 = k)) = true) :
    lookupControl (reg.map fun p => if p.1 = k then (k, b) else p) k = some b := by
  induction reg with
  | nil => simp at h
  | cons p ps ih =>
    obtain ⟨k0, b0⟩ := p
    by_cases h0 : k0 = k
    · simp [lookupControl, h0]
    · have h' : (ps.any fun p => decide (p.1 = k)) = true := by
        simpa [List.any_cons, h0] using h
      simp [lookupControl, h0, ih h']

/-- Replacing the value stored at `k` leaves every other key's lookup
unchanged. -/
lemma lookup_replace_other (reg : List (String × Binding)) (k k2 : String) (b : Binding)
    (h : k2 ≠ k) :
    lookupControl (reg.map fun p => if p.1 = k then (k, b) else p) k2
      = lookupControl reg k2 := by
  induction reg with
  | nil => rfl
  | cons p ps ih =>
    obtain ⟨k0, b0⟩ := p
    by_cases h0 : k0 = k
    · subst h0
      simp [lookupControl, Ne.symm h, ih]
    · by_cases h2 : k0 = k2
      · subst h2
        simp [lookupControl, h0]
      · simp [lookupControl, h0, h2, ih]

/-- Binding used by the C5 scenario (a plain button labelled `'A'`). -/
def bindA : Binding := { control := Control.button "A", projection := none }

/-- Binding used by the C5 scenario (a plain button labelled `'B'`). -/
def bindB : Binding := { control := Control.button "B", projection := none }

/-- Claim C5, counterexample: registering key `"popcap"` twice does not fail —
the second registration silently replaces the first binding (`bindA` is gone,
`bindB` is stored), because registration is a plain dict assignment. -/
theorem register_duplicate_cex :
    register (register [] "popcap" bindA) "popcap" bindB = [("popcap", bindB)]
    ∧ bindB ≠ bindA := by
  refine ⟨rfl, fun h => ?_⟩
  simp only [bindA, bindB, Binding.mk.injEq, Control.button.injEq] at h
  exact absurd h.1 (by decide)

/-- Claim C5, amended: registering an already-registered key is not an error;
it silently replaces the existing binding — the registry keeps its size, the
key now looks up the new binding, and every other key's binding is
untouched. -/
theorem register_overwrites (reg : List (String × Binding)) (k : String) (b : Binding)
    (h : (reg.any fun p => decide (p.1 = k)) = true) :
    (register reg k b).length = reg.length
    ∧ lookupControl (register reg k b) k = some b
    ∧ ∀ k2, k2 ≠ k → lookupControl (register reg k b) k2 = lookupControl reg k2 := by
  have hreg : register reg k b = reg.map fun p => if p.1 = k then (k, b) else p := by
    unfold register
    rw [if_pos h]
  rw [hreg]
  exact ⟨List.length_map _ _, lookup_replace_self reg k b h,
    fun k2 hk2 => lookup_replace_other reg k k2 b hk2⟩

/-- Claim C5, witness: re-registering `"popcap"` over a one-entry registry
keeps one entry, looking up the new binding, and the lookup of the unrelated
key `"invaders"` is unchanged. -/
theorem register_overwrites_witness :
    (register [("popcap", bindA)] "popcap" bindB).length = 1
    ∧ lookupControl (register [("popcap", bindA)] "popcap" bindB) "popcap" = some bindB
    ∧ lookupControl (register [("popcap", bindA)] "popcap" bindB) "invaders"
        = lookupControl [("popcap", bindA)] "invaders" :=
  ⟨(register_overwrites [("popcap", bindA)] "popcap" bindB (by decide)).1,
   (register_overwrites [("popcap", bindA)] "popcap" bindB (by decide)).2.1,
   (register_overwrites [("popcap", bindA)] "popcap" bindB (by decide)).2.2
     "invaders" (by decide)⟩

/-! ## Lemmas about the list projection engine -/

/-- Claim C6: both list rebuilds produce exactly one row per input item, the
`i`-th row carrying the `i`-th item's identifier, and the result never
depends on the previously rendered rows (full clear-then-insert: no stale
rows persist). -/
theorem project_rows_shape (hide : Bool) (autorun progs : List String)
    (old : List ListRow) (hacks : List (String × Bool)) (old2 : List ListRow) :
    (update_autorun_list hide autorun progs old).length = progs.length
    ∧ (∀ i : Nat, ((update_autorun_list hide autorun progs old)[i]?.map fun r => r.text)
        = progs[i]?)
    ∧ update_autorun_list hide autorun progs old = update_autorun_list hide autorun progs []
    ∧ (update_hack_list hacks old2).length = hacks.length
    ∧ (∀ i : Nat, ((update_hack_list hacks old2)[i]?.map fun r => r.text)
        = (hacks[i]?.map fun kh => kh.1))
    ∧ update_hack_list hacks old2 = update_hack_list hacks [] := by
  refine ⟨?_, ?_, ?_, ?_, ?_, ?_⟩
  · simp [update_autorun_list]
  · intro i
    simp only [update_autorun_list, List.filter_false, List.nil_append,
      List.getElem?_map]
    cases progs[i]? <;> simp [autorunRow]
  · simp [update_autorun_list]
  · simp [update_hack_list]
  · intro i
    simp only [update_hack_list, List.filter_false, List.nil_append,
      List.getElem?_map]
    cases hacks[i]? <;> simp
  · simp [update_hack_list]

/-- The rows built by the unguarded insertion loop: exactly the items up to
the first status-lookup failure, each with its looked-up status. -/
lemma insertRowsFallible_fst (hide : Bool) (lk : String → Option Bool)
    (progs : List String) :
    (insertRowsFallible hide lk progs).1
      = (progs.takeWhile fun p => (lk p).isSome).map
          fun p => { text := p, label := exeLabel hide p,
                     status := if (lk p).getD false then "Yes" else "No" } := by
  induction progs with
  | nil => rfl
  | cons p ps ih =>
    rcases hl : lk p with _ | flag
    · simp [insertRowsFallible, List.takeWhile_cons, hl]
    · simp [insertRowsFallible, List.takeWhile_cons, hl, ih]

/-- The insertion loop reports success exactly when every item's status
lookup succeeds. -/
lemma insertRowsFallible_snd (hide : Bool) (lk : String → Option Bool)
    (progs : List String) :
    ((insertRowsFallible hide lk progs).2 = true
      ↔ (progs.all fun p => (lk p).isSome) = true) := by
  induction progs with
  | nil => simp [insertRowsFallible]
  | cons p ps ih =>
    rcases hl : lk p with _ | flag
    · simp [insertRowsFallible, hl]
    · simp [insertRowsFallible, hl, ih]

/-- With the source's actual total status test (list membership), the
insertion loop never aborts and produces exactly the rows of
`update_autorun_list`. -/
lemma insertRowsFallible_total (hide : Bool) (autorun : List String)
    (progs : List String) :
    insertRowsFallible hide (fun p => some (decide (p ∈ autorun))) progs
      = (progs.map (autorunRow hide autorun), true) := by
  induction progs with
  | nil => rfl
  | cons p ps ih =>
    simp [insertRowsFallible, ih, autorunRow]

/-- Status lookup of the C7 scenario: `"a.txt"` is enabled, every other item's
lookup raises. -/
def lk7 : String → Option Bool := fun p => if p == "a.txt" then some true else none

/-- Claim C7, counterexample: projecting `["a.txt", "b.txt"]` when the status
lookup raises for `"b.txt"` yields exactly one row — the correct row for
`"a.txt"` — and aborts: `"b.txt"` receives no row at all, with or without a
sentinel status, because the loop body has no exception handling. -/
theorem project_status_failure_cex :
    update_autorun_list_fallible false lk7 ["a.txt", "b.txt"] []
      = ([{ text := "a.txt", label := "a.txt", status := "Yes" }], false) := by
  decide

/-- Claim C7, amended: the projection loop performs no per-item failure
isolation: the rows produced are exactly those of the items before the first
status-lookup failure (each with its real `'Yes'`/`'No'` status, never an
`"unknown"` sentinel); the loop succeeds only when every lookup succeeds; and
with the source's actual total membership test it always succeeds, matching
`update_autorun_list`. -/
theorem project_status_failure (hide : Bool) (statusLookup : String → Option Bool)
    (progs : List String) (old : List ListRow) (autorun : List String) :
    (update_autorun_list_fallible hide statusLookup progs old).1
      = (progs.takeWhile fun p => (statusLookup p).isSome).map
          (fun p => { text := p, label := exeLabel hide p,
                      status := if (statusLookup p).getD false then "Yes" else "No" })
    ∧ ((update_autorun_list_fallible hide statusLookup progs old).2 = true
        ↔ (progs.all fun p => (statusLookup p).isSome) = true)
    ∧ update_autorun_list_fallible hide (fun p => some (decide (p ∈ autorun))) progs old
        = (update_autorun_list hide autorun progs old, true) := by
  refine ⟨?_, ?_, ?_⟩
  · simpa [update_autorun_list_fallible] using insertRowsFallible_fst hide statusLookup progs
  · simpa [update_autorun_list_fallible] using insertRowsFallible_snd hide statusLookup progs
  · simp [update_autorun_list_fallible, update_autorun_list,
      insertRowsFallible_total hide autorun progs]

/-! ## Lemmas about the hover notifier -/

/-- Invariant of the timer system: at most one timer is pending, and any
pending timer is the one whose handle is stored in `tooltip.event`. -/
def TimerInv (w : World) : Prop :=
  w.pending.length ≤ 1 ∧ ∀ t ∈ w.pending, w.tip.event = some t

lemma showtip_pending (w : World) : (showtip w).pending = w.pending := by
  unfold showtip
  dsimp only
  split <;> rfl

lemma showtip_event (w : World) : (showtip w).tip.event = w.tip.event := by
  unfold showtip
  dsimp only
  split <;> rfl

lemma settext_pending (w : World) (txt : String) :
    (settext w txt).pending = w.pending := by
  unfold settext
  split
  · rfl
  · dsimp only
    split
    · rw [showtip_pending]
      rfl
    · rfl

lemma settext_event (w : World) (txt : String) :
    (settext w txt).tip.event = w.tip.event := by
  unfold settext
  split
  · rfl
  · dsimp only
    split
    · rw [showtip_event]
      rfl
    · rfl

lemma pending_nil_of_event_none (w : World) (h : TimerInv w)
    (he : w.tip.event = none) : w.pending = [] := by
  cases hp : w.pending with
  | nil => rfl
  | cons a l =>
    have ha := h.2 a (by rw [hp]; exact List.mem_cons_self a l)
    rw [he] at ha
    cases ha

lemma erase_stored_nil (w : World) (t : Nat) (h : TimerInv w)
    (he : w.tip.event = some t) : w.pending.erase t = [] := by
  cases hp : w.pending with
  | nil => rfl
  | cons a l =>
    have ha := h.2 a (by rw [hp]; exact List.mem_cons_self a l)
    rw [he] at ha
    obtain rfl : t = a := Option.some.inj ha
    have hl : l = [] := by
      have h1 := h.1
      rw [hp] at h1
      simp only [List.length_cons] at h1
      exact List.eq_nil_of_length_eq_zero (by omega)
    subst hl
    exact List.erase_cons_head t []

/-- Under the invariant, a pointer-enter event leaves exactly one pending
timer, whose handle is the stored one. -/
lemma enter_cases (w : World) (h : TimerInv w) :
    ∃ n, (enter w).pending = [n] ∧ (enter w).tip.event = some n := by
  rcases he : w.tip.event with _ | t
  · have hp := pending_nil_of_event_none w h he
    exact ⟨w.nextId, by simp [enter, he, hp], by simp [enter, he]⟩
  · have hp := erase_stored_nil w t h he
    exact ⟨w.nextId, by simp [enter, he, after_cancel, hp],
      by simp [enter, he, after_cancel]⟩

/-- Under the invariant, a pointer-exit event cancels the pending timer:
nothing remains scheduled. -/
lemma leave_pending (w : World) (h : TimerInv w) : (leave w).pending = [] := by
  rcases he : w.tip.event with _ | t
  · have hp := pending_nil_of_event_none w h he
    simp [leave, he, hidetip, hp]
  · have hp := erase_stored_nil w t h he
    simp [leave, he, after_cancel, hidetip, hp]

/-- Every event preserves the timer invariant. -/
lemma timerInv_step (w : World) (e : Ev) (h : TimerInv w) : TimerInv (step w e) := by
  cases e with
  | enter =>
    obtain ⟨n, hp, he⟩ := enter_cases w h
    refine ⟨by rw [show step w Ev.enter = enter w from rfl, hp]; simp, ?_⟩
    intro t ht
    rw [show step w Ev.enter = enter w from rfl, hp] at ht
    rw [show step w Ev.enter = enter w from rfl, he]
    rcases List.mem_singleton.mp ht with rfl
    rfl
  | leave =>
    have hp := leave_pending w h
    refine ⟨by rw [show step w Ev.leave = leave w from rfl, hp]; simp, ?_⟩
    intro t ht
    rw [show step w Ev.leave = leave w from rfl, hp] at ht
    cases ht
  | fire t =>
    show TimerInv (fire w t)
    unfold fire
    by_cases ht : t ∈ w.pending
    · rw [if_pos ht]
      have he := h.2 t ht
      have hp := erase_stored_nil w t h he
      constructor
      · rw [showtip_pending]
        simp [hp]
      · intro u hu
        rw [showtip_pending] at hu
        simp [hp] at hu
    · rw [if_neg ht]
      exact h
  | settext txt =>
    constructor
    · rw [show step w (Ev.settext txt) = settext w txt from rfl, settext_pending]
      exact h.1
    · intro u hu
      rw [show step w (Ev.settext txt) = settext w txt from rfl, settext_pending] at hu
      rw [show step w (Ev.settext txt) = settext w txt from rfl, settext_event]
      exact h.2 u hu
  | move x y => exact h

/-- The timer invariant holds along any event sequence. -/
lemma timerInv_foldl (evs : List Ev) (w : World) (h : TimerInv w) :
    TimerInv (evs.foldl step w) := by
  induction evs generalizing w with
  | nil => exact h
  | cons e es ih => exact ih (step w e) (timerInv_step w e h)

/-- The initial state satisfies the timer invariant. -/
lemma timerInv_init (text : String) : TimerInv (init text) :=
  ⟨by simp [init], by intro t ht; simp [init] at ht⟩

/-- The timer invariant holds in every reachable state. -/
lemma timerInv_run (text : String) (evs : List Ev) : TimerInv (run text evs) :=
  timerInv_foldl evs (init text) (timerInv_init text)

/-- Claim C8: along every event sequence at most one delay timer is pending;
a pointer-enter event always ends with exactly one pending timer (the fresh
one, any previous one having been cancelled first), and a pointer-exit event
always ends with none. -/
theorem tooltip_single_pending (text : String) (evs : List Ev) :
    (run text evs).pending.length ≤ 1
    ∧ (run text (evs ++ [Ev.enter])).pending.length = 1
    ∧ (run text (evs ++ [Ev.leave])).pending = [] := by
  have h := timerInv_run text evs
  refine ⟨h.1, ?_, ?_⟩
  · rw [run, List.foldl_append]
    obtain ⟨n, hp, _⟩ := enter_cases (run text evs) h
    show (enter (run text evs)).pending.length = 1
    rw [hp]
    rfl
  · rw [run, List.foldl_append]
    show (leave (run text evs)).pending = []
    exact leave_pending (run text evs) h

/-- State of the C9 scenario: the tooltip was shown while the pointer was at
the origin (anchor `(16, 16)`), then the pointer moved to `(10, 10)`. -/
def w9 : World := run "old" [Ev.enter, Ev.fire 0, Ev.move 10 10]

/-- Claim C9, counterexample: with the annotation shown at anchor `(16, 16)`
and the pointer since moved, `settext` with different text destroys and
recreates the annotation at the pointer's current position `(26, 26)` — not
at the same anchor point as before. -/
theorem settext_anchor_cex :
    w9.tip.tipwindow = some (16, 16)
    ∧ (settext w9 "new").tip.tipwindow = some (26, 26)
    ∧ (some ((16 : Int), (16 : Int)) : Option (Int × Int)) ≠ some (26, 26) :=
  ⟨rfl, rfl, by decide⟩

/-- Claim C9, amended: `settext` with identical text is a no-op.  With
differing nonempty text while the tooltip is active, the annotation is
destroyed and synchronously recreated — no timer is scheduled and the stored
handle is untouched (the delay is not re-run) — anchored at the pointer's
current position offset by `+16` in each axis (not necessarily the previous
anchor).  With differing empty text the annotation is destroyed and not
recreated. -/
theorem settext_redraw (w : World) (txt : String) :
    (txt = w.tip.text → settext w txt = w)
    ∧ (txt ≠ w.tip.text → w.tip.active = true → txt ≠ "" →
        (settext w txt).tip.tipwindow = some (w.px + 16, w.py + 16)
        ∧ (settext w txt).tip.text = txt
        ∧ (settext w txt).tip.active = true
        ∧ (settext w txt).pending = w.pending
        ∧ (settext w txt).tip.event = w.tip.event)
    ∧ (txt ≠ w.tip.text → w.tip.active = true → txt = "" →
        (settext w txt).tip.tipwindow = none
        ∧ (settext w txt).tip.active = true) := by
  refine ⟨?_, ?_, ?_⟩
  · intro he
    unfold settext
    rw [if_pos he]
  · intro hne hact hemp
    have hs : settext w txt = showtip (hidetip { w with tip := { w.tip with text := txt } }) := by
      unfold settext
      rw [if_neg hne, if_pos hact]
    rw [hs]
    simp [showtip, hidetip, hemp]
  · intro hne hact hemp
    have hs : settext w txt = showtip (hidetip { w with tip := { w.tip with text := txt } }) := by
      unfold settext
      rw [if_neg hne, if_pos hact]
    rw [hs]
    simp [showtip, hidetip, hemp]

/-- Claim C9, witness: the amended redraw case applied to the concrete shown
state `w9` with new text `"new"`. -/
theorem settext_redraw_witness :
    (settext w9 "new").tip.tipwindow = some (w9.px + 16, w9.py + 16)
    ∧ (settext w9 "new").tip.text = "new"
    ∧ (settext w9 "new").tip.active = true
    ∧ (settext w9 "new").pending = w9.pending
    ∧ (settext w9 "new").tip.event = w9.tip.event :=
  (settext_redraw w9 "new").2.1 (by decide) (by decide) (by decide)

/-! ## The entry change handler -/

/-- Claim C10: when an entry control's current content is the empty string,
`change_entry` performs no write — the controller's settings are returned
unchanged. -/
theorem change_entry_empty (k : String) (st : List (String × String)) :
    change_entry k "" st = st := by
  simp [change_entry]

end PyLNP
